import Mathlib

/-!
Verification of the datatable-filters coordination engine
(`src/js/filters.js` and the text-input filter variant).

The coordinator is embedded shallowly: the grid collaborator (the
datatable) is represented by an explicit `Grid` state holding the loaded
rows, the per-column search predicates staged by `column().search(...)`,
the remote-fetch URL, and an observable event log recording every effect
the coordinator performs against the grid (predicate application, filter
refresh calls, redraws, URL rewrites, reloads).  Predicate matching
itself is performed by the external grid, so it is kept as an explicit
parameter `m : ColSearch → String → Bool`.
-/

namespace DatatableFilters

/-- Observable effects the coordinator performs against the grid and the
filter widgets.  `searched c q r` records `tableAPI.column(c).search(q, r,
false)`; `refreshed c vs` records `filter.refresh(vs)` on the filter of
column `c`; `draw` records `tableAPI.draw()`; `urlSet u` records
`tableAPI.ajax.url(u)`; `reload` records `tableAPI.ajax.reload()`. -/
inductive Event where
  | searched : Nat → String → Bool → Event
  | refreshed : Nat → List String → Event
  | draw : Event
  | urlSet : String → Event
  | reload : Event
deriving DecidableEq

/-- A per-column search state of the grid: the query string and the
regex flag, as passed to `column().search(query, regex, false)`. -/
structure ColSearch where
  query : String
  regex : Bool
deriving DecidableEq

/-- Modelled from the spec (§6, the grid collaborator is out of scope of
`src/`): the grid exposes its column count, the loaded rows (rendered
cell values per column), the per-column search state, the remote-fetch
URL, and — as instrumentation — the log of effects performed on it. -/
structure Grid where
  numCols : Nat
  rows : List (List String)
  searches : Nat → ColSearch
  url : String
  log : List Event

/-- A filter object as the coordinator sees it (the capability contract
of §4.1; `BaseFilter` itself is not under `src/`).  `column` and
`renderColumn` come from construction; `hasValue`, `query`,
`initialQuery`, `serverQuery`, `regexMatch` and `serverSide` snapshot the
results of the corresponding contract methods; `options` is the filter's
current option universe, overwritten by `refresh`. -/
structure Filter where
  column : Nat
  renderColumn : Nat
  serverSide : Bool
  hasValue : Bool
  query : String
  initialQuery : String
  serverQuery : String
  regexMatch : Bool
  options : List String
deriving DecidableEq

/-- Modelled from the spec: `refresh(values)` updates the widget's option
universe without touching its value state (§4.1). -/
def Filter.refresh (f : Filter) (vs : List String) : Filter :=
  { f with options := vs }

/-- Embeds `tableAPI.column(col).search(s.query, s.regex, false)`:
stage the search for column `col` and log the effect. -/
def applySearch (g : Grid) (col : Nat) (s : ColSearch) : Grid :=
  { g with
    searches := fun c => if c = col then s else g.searches c,
    log := g.log ++ [Event.searched col s.query s.regex] }

/-- Source `drawTable` (filters.js line 111): `tableAPI.draw()`. -/
def drawTable (g : Grid) : Grid :=
  { g with log := g.log ++ [Event.draw] }

/-- Log a `filter.refresh(vs)` call on the filter of column `col`. -/
def logRefresh (g : Grid) (col : Nat) (vs : List String) : Grid :=
  { g with log := g.log ++ [Event.refreshed col vs] }

/-- De-duplicate keeping first occurrences, the `unique()` step of the
column data accessors. -/
def dedupFirst (l : List String) : List String :=
  l.foldl (fun acc x => if acc.contains x then acc else acc ++ [x]) []

/-- The distinct rendered values of column `col` over the given rows. -/
def cellColumn (rows : List (List String)) (col : Nat) : List String :=
  dedupFirst (rows.map (fun r => r.getD col ""))

/-- Source `getColumnData` (filters.js lines 124-126):
`tableAPI.cells(null, col).render('display').unique()` — the distinct
rendered values of the column over all rows, the search state ignored. -/
def getColumnData (g : Grid) (col : Nat) : List String :=
  cellColumn g.rows col

/-- Modelled from the spec (§4.3, §6): a row passes the grid's applied
search state iff every column's staged search accepts its rendered cell,
matching performed by the external grid via `m`. -/
def rowPasses (m : ColSearch → String → Bool) (g : Grid) (r : List String) : Bool :=
  (List.range g.numCols).all (fun c => m (g.searches c) (r.getD c ""))

/-- Source `getFilteredColumnData` (filters.js lines 135-137):
`tableAPI.cells(null, col, {search: 'applied'}).render('display').unique()`
— the distinct rendered values of the column over the rows that pass
every currently applied search. -/
def getFilteredColumnData (m : ColSearch → String → Bool) (g : Grid) (col : Nat) :
    List String :=
  cellColumn (g.rows.filter (rowPasses m g)) col

/-- The coordinator's state: the ordered filter collection, the base URL
captured at construction (`this.url`), whether the one-time `init` event
was subscribed, and the grid. -/
structure St where
  filters : List Filter
  url : String
  initHooked : Bool
  grid : Grid

/-- Source `applyFilter` (filters.js lines 209-216): stage
`filter.getQuery()` with `filter.isRegexMatch()` on the filter's column. -/
def applyFilter (g : Grid) (f : Filter) : Grid :=
  applySearch g f.column ⟨f.query, f.regexMatch⟩

/-- Source `applyInitialFilter` (filters.js lines 225-232): stage
`filter.getInitialQuery()` with `filter.isRegexMatch()` on the filter's
column. -/
def applyInitialFilter (g : Grid) (f : Filter) : Grid :=
  applySearch g f.column ⟨f.initialQuery, f.regexMatch⟩

/-- The loop body of `refreshFilters` (filters.js lines 277-280): for
each filter in order, `filter.refresh(getColumnData(filter.column))`
then `applyFilter(filter)`. -/
def refreshLoop : List Filter → Grid → List Filter × Grid
  | [], g => ([], g)
  | f :: fs, g =>
    let vs := getColumnData g f.column
    let f' := f.refresh vs
    let g' := applyFilter (logRefresh g f.column vs) f'
    let r := refreshLoop fs g'
    (f' :: r.1, r.2)

/-- Source `refreshFilters` (filters.js lines 276-285): refresh and reapply
every filter in collection order, then `drawTable()` once. -/
def refreshFilters (st : St) : St :=
  let r := refreshLoop st.filters st.grid
  { st with filters := r.1, grid := drawTable r.2 }

/-- The cascade loop of `onClientFilterChange` (filters.js lines
175-178): for each filter of the refresh set, in order,
`filter.refresh(getFilteredColumnData(filter.column))` then
`applyFilter(filter)`. -/
def cascadeLoop (m : ColSearch → String → Bool) :
    List Filter → Grid → List Filter × Grid
  | [], g => ([], g)
  | f :: fs, g =>
    let vs := getFilteredColumnData m g f.column
    let f' := f.refresh vs
    let g' := applyFilter (logRefresh g f.column vs) f'
    let r := cascadeLoop m fs g'
    (f' :: r.1, r.2)

/-- The refresh set of `onClientFilterChange` (filters.js lines
167-173): all filters, except that when the changed filter has a value
every filter whose column equals the changed one's is dropped. -/
def refreshSet (fs : List Filter) (changed : Filter) : List Filter :=
  if changed.hasValue then
    fs.filter (fun f => f.column ≠ changed.column)
  else fs

/-- Source `onClientFilterChange` (filters.js lines 161-183): apply the changed
filter's predicate, run the cascade over the refresh set, redraw once.
The filter objects are mutated in place in the source, so the refreshed
versions replace the originals (matched by their unique `column`) in the
collection. -/
def onClientFilterChange (m : ColSearch → String → Bool) (st : St)
    (changed : Filter) : St :=
  let g1 := applyFilter st.grid changed
  let r := cascadeLoop m (refreshSet st.filters changed) g1
  let newFilters := st.filters.map
    (fun f => (r.1.find? (fun f2 => f2.column == f.column)).getD f)
  { st with filters := newFilters, grid := drawTable r.2 }

/-- Source `onServerFilterChange` (filters.js lines 190-200): collect
`getServerQuery()` from every server-side filter, join with `&`, set the
ajax URL to the construction-captured base plus `?` plus the query, and
reload. -/
def onServerFilterChange (st : St) : St :=
  let q := String.intercalate "&"
    ((st.filters.filter (fun f => f.serverSide)).map (fun f => f.serverQuery))
  let u := st.url ++ "?" ++ q
  { st with
    grid := { st.grid with
              url := u,
              log := st.grid.log ++ [Event.urlSet u, Event.reload] } }

/-- A filter descriptor declared on a column (`param.filter`): the
registered type name.  Type-specific options are closed over by the
registered builder. -/
structure FilterDesc where
  type : String
deriving DecidableEq

/-- A column declaration as the constructor reads it
(`settings.aoColumns` entries): the optional filter descriptor and the
visibility flag `bVisible`. -/
structure ColumnDef where
  filter : Option FilterDesc
  bVisible : Bool
deriving DecidableEq

/-- The filter registry `Filters.prototype.builders`: type name to
builder; a builder receives the `column` and `renderColumn` computed by
the constructor. -/
def Registry : Type :=
  List (String × (Nat → Nat → Filter))

/-- The column scan of the constructor (filters.js lines 18-32): walk
the column declarations tracking the logical column index and the
visible-column index; a declared filter type absent from the registry is
a lookup failure (`builders[type]` is undefined and the call throws),
modelled as `Except.error`. -/
def buildFiltersAux (reg : Registry) :
    List ColumnDef → Nat → Nat → Except String (List Filter)
  | [], _, _ => Except.ok []
  | c :: cs, col, renderCol =>
    let renderCol' := if c.bVisible then renderCol + 1 else renderCol
    match c.filter with
    | none => buildFiltersAux reg cs (col + 1) renderCol'
    | some d =>
      match List.lookup d.type reg with
      | none => Except.error d.type
      | some b =>
        Except.map (fun fs => b col renderCol :: fs)
          (buildFiltersAux reg cs (col + 1) renderCol')

/-- The `Filters` constructor (filters.js lines 13-42): capture the base
URL, build the filter collection; when it is non-empty, `init()` each
filter (a DOM-only effect), apply every filter's initial query to the
grid, and subscribe to the one-time `init` event; when it is empty, do
nothing further. -/
def construct (reg : Registry) (cols : List ColumnDef) (g : Grid) :
    Except String St :=
  Except.map
    (fun fs =>
      if fs.isEmpty then
        { filters := [], url := g.url, initHooked := false, grid := g }
      else
        { filters := fs, url := g.url, initHooked := true,
          grid := fs.foldl applyInitialFilter g })
    (buildFiltersAux reg cols 0 0)

/-! ### Basic preservation lemmas -/

theorem applySearch_rows (g : Grid) (col : Nat) (s : ColSearch) :
    (applySearch g col s).rows = g.rows := rfl

theorem applySearch_numCols (g : Grid) (col : Nat) (s : ColSearch) :
    (applySearch g col s).numCols = g.numCols := rfl

theorem applySearch_log (g : Grid) (col : Nat) (s : ColSearch) :
    (applySearch g col s).log = g.log ++ [Event.searched col s.query s.regex] := rfl

theorem applySearch_searches (g : Grid) (col : Nat) (s : ColSearch) (c : Nat) :
    (applySearch g col s).searches c = if c = col then s else g.searches c := rfl

theorem drawTable_searches (g : Grid) (c : Nat) :
    (drawTable g).searches c = g.searches c := rfl

theorem drawTable_log (g : Grid) :
    (drawTable g).log = g.log ++ [Event.draw] := rfl

theorem getColumnData_eq (g : Grid) (col : Nat) :
    getColumnData g col = cellColumn g.rows col := rfl

/-! ### Characterization of `refreshLoop` -/

theorem refreshLoop_rows (fs : List Filter) (g : Grid) :
    (refreshLoop fs g).2.rows = g.rows := by
  induction fs generalizing g with
  | nil => rfl
  | cons f fs ih => simpa [refreshLoop] using ih _

theorem refreshLoop_filters (fs : List Filter) (g : Grid) :
    (refreshLoop fs g).1 =
      fs.map (fun f => f.refresh (cellColumn g.rows f.column)) := by
  induction fs generalizing g with
  | nil => rfl
  | cons f fs ih =>
    simp only [refreshLoop, List.map_cons, List.cons.injEq]
    exact ⟨rfl, ih _⟩

theorem refreshLoop_log (fs : List Filter) (g : Grid) :
    (refreshLoop fs g).2.log = g.log ++
      (fs.map (fun f =>
        [Event.refreshed f.column (cellColumn g.rows f.column),
         Event.searched f.column f.query f.regexMatch])).flatten := by
  induction fs generalizing g with
  | nil => simp [refreshLoop]
  | cons f fs ih =>
    simp only [refreshLoop, List.map_cons, List.flatten_cons]
    rw [ih]
    simp [applyFilter, applySearch, logRefresh, Filter.refresh, getColumnData]

/-- The search state written last on column `c` by a sequence of
`applySearch` calls at `f.column` with payload `w f`. -/
def lastWriteOn (w : Filter → ColSearch) : List Filter → Nat → Option ColSearch
  | [], _ => none
  | f :: fs, c =>
    match lastWriteOn w fs c with
    | some s => some s
    | none => if f.column = c then some (w f) else none

theorem lastWriteOn_of_not_mem (w : Filter → ColSearch) (fs : List Filter) (c : Nat)
    (h : ∀ f ∈ fs, f.column ≠ c) : lastWriteOn w fs c = none := by
  induction fs with
  | nil => rfl
  | cons f fs ih =>
    simp only [lastWriteOn, ih (fun f hf => h f (List.mem_cons_of_mem _ hf))]
    simp [h f (List.mem_cons_self f fs)]

theorem lastWriteOn_self (w : Filter → ColSearch) (fs : List Filter)
    (hnodup : (fs.map (fun f => f.column)).Nodup) (f : Filter) (hf : f ∈ fs) :
    lastWriteOn w fs f.column = some (w f) := by
  induction fs with
  | nil => cases hf
  | cons f0 fs ih =>
    rw [List.map_cons, List.nodup_cons] at hnodup
    rcases List.mem_cons.mp hf with h | h
    · subst h
      have hnone : lastWriteOn w fs f.column = none := by
        refine lastWriteOn_of_not_mem w fs f.column (fun f' hf' hc => ?_)
        exact hnodup.1 (hc ▸ List.mem_map_of_mem (fun f => f.column) hf')
      simp [lastWriteOn, hnone]
    · simp [lastWriteOn, ih hnodup.2 h]

theorem refreshLoop_searches (fs : List Filter) (g : Grid) (c : Nat) :
    (refreshLoop fs g).2.searches c =
      (lastWriteOn (fun f => ⟨f.query, f.regexMatch⟩) fs c).getD (g.searches c) := by
  induction fs generalizing g with
  | nil => rfl
  | cons f fs ih =>
    simp only [refreshLoop, lastWriteOn]
    rw [ih]
    cases hlast : lastWriteOn (fun f => ⟨f.query, f.regexMatch⟩) fs c with
    | some s => simp
    | none =>
      by_cases hcol : f.column = c
      · subst hcol
        simp [applyFilter, applySearch, Filter.refresh, logRefresh]
      · have hc' : ¬c = f.column := fun h => hcol h.symm
        simp [applyFilter, applySearch, Filter.refresh, logRefresh, hcol, hc']

/-! ### Characterization of `cascadeLoop` -/

/-- Erase the value payload of `refreshed` events; the shape of a
cascade trace is stated up to this erasure, since the values passed to
`refresh` depend on the evolving search state. -/
def scrubRefresh : Event → Event
  | Event.refreshed c _ => Event.refreshed c []
  | e => e

theorem cascadeLoop_log_scrubbed (m : ColSearch → String → Bool)
    (fs : List Filter) (g : Grid) :
    ((cascadeLoop m fs g).2.log).map scrubRefresh =
      g.log.map scrubRefresh ++ (fs.map (fun f =>
        [Event.refreshed f.column [],
         Event.searched f.column f.query f.regexMatch])).flatten := by
  induction fs generalizing g with
  | nil => simp [cascadeLoop]
  | cons f fs ih =>
    simp only [cascadeLoop, List.map_cons, List.flatten_cons]
    rw [ih]
    simp [applyFilter, applySearch, logRefresh, Filter.refresh, scrubRefresh]

theorem rowPasses_congr (m : ColSearch → String → Bool) (g g' : Grid)
    (hcols : g'.numCols = g.numCols)
    (hs : ∀ c, g'.searches c = g.searches c) (r : List String) :
    rowPasses m g' r = rowPasses m g r := by
  simp only [rowPasses, hcols]
  congr 1
  funext c
  rw [hs c]

theorem getFilteredColumnData_congr (m : ColSearch → String → Bool) (g g' : Grid)
    (hrows : g'.rows = g.rows) (hcols : g'.numCols = g.numCols)
    (hs : ∀ c, g'.searches c = g.searches c) (col : Nat) :
    getFilteredColumnData m g' col = getFilteredColumnData m g col := by
  unfold getFilteredColumnData
  rw [hrows]
  congr 1
  apply List.filter_congr
  intro r _
  exact rowPasses_congr m g g' hcols hs r

theorem cascadeLoop_log_synced (m : ColSearch → String → Bool)
    (fs : List Filter) (g : Grid)
    (h : ∀ f ∈ fs, g.searches f.column = ⟨f.query, f.regexMatch⟩) :
    (cascadeLoop m fs g).2.log = g.log ++ (fs.map (fun f =>
      [Event.refreshed f.column (getFilteredColumnData m g f.column),
       Event.searched f.column f.query f.regexMatch])).flatten := by
  induction fs generalizing g with
  | nil => simp [cascadeLoop]
  | cons f fs ih =>
    have hmem := h f (List.mem_cons_self f fs)
    set vs := getFilteredColumnData m g f.column with hvs
    set g' := applyFilter (logRefresh g f.column vs) (f.refresh vs) with hg'
    have hrows : g'.rows = g.rows := rfl
    have hcols : g'.numCols = g.numCols := rfl
    have hs : ∀ c, g'.searches c = g.searches c := by
      intro c
      rw [hg']
      by_cases hc : c = f.column
      · subst hc
        simp [applyFilter, applySearch, logRefresh, Filter.refresh, hmem]
      · simp [applyFilter, applySearch, logRefresh, Filter.refresh, hc]
    have h' : ∀ f2 ∈ fs, g'.searches f2.column = ⟨f2.query, f2.regexMatch⟩ := by
      intro f2 hf2
      rw [hs f2.column]
      exact h f2 (List.mem_cons_of_mem f hf2)
    have hlog : g'.log = g.log ++ [Event.refreshed f.column vs,
        Event.searched f.column f.query f.regexMatch] := by
      rw [hg']
      simp [applyFilter, applySearch, logRefresh, Filter.refresh]
    have hstep : (cascadeLoop m (f :: fs) g).2 = (cascadeLoop m fs g').2 := rfl
    rw [hstep, ih g' h', hlog]
    have hmap : fs.map (fun f2 =>
        [Event.refreshed f2.column (getFilteredColumnData m g' f2.column),
         Event.searched f2.column f2.query f2.regexMatch]) = fs.map (fun f2 =>
        [Event.refreshed f2.column (getFilteredColumnData m g f2.column),
         Event.searched f2.column f2.query f2.regexMatch]) := by
      apply List.map_congr_left
      intro f2 _
      rw [getFilteredColumnData_congr m g g' hrows hcols hs]
    rw [hmap]
    simp [List.flatten_cons]

/-! ### Characterization of the initial-query fold -/

theorem applyInitAll_log (fs : List Filter) (g : Grid) :
    (fs.foldl applyInitialFilter g).log = g.log ++
      fs.map (fun f => Event.searched f.column f.initialQuery f.regexMatch) := by
  induction fs generalizing g with
  | nil => simp
  | cons f fs ih =>
    simp only [List.foldl_cons, List.map_cons]
    rw [ih]
    simp [applyInitialFilter, applySearch]

theorem applyInitAll_searches (fs : List Filter) (g : Grid) (c : Nat) :
    (fs.foldl applyInitialFilter g).searches c =
      (lastWriteOn (fun f => ⟨f.initialQuery, f.regexMatch⟩) fs c).getD
        (g.searches c) := by
  induction fs generalizing g with
  | nil => rfl
  | cons f fs ih =>
    simp only [List.foldl_cons, lastWriteOn]
    rw [ih]
    cases hlast : lastWriteOn (fun f => ⟨f.initialQuery, f.regexMatch⟩) fs c with
    | some s => simp
    | none =>
      by_cases hcol : f.column = c
      · subst hcol
        simp [applyInitialFilter, applySearch]
      · have hc' : ¬c = f.column := fun h => hcol h.symm
        simp [applyInitialFilter, applySearch, hcol, hc']

theorem applyInitAll_url (fs : List Filter) (g : Grid) :
    (fs.foldl applyInitialFilter g).url = g.url := by
  induction fs generalizing g with
  | nil => rfl
  | cons f fs ih => simpa [applyInitialFilter, applySearch] using ih _

/-! ### Constructor lemmas -/

theorem buildFiltersAux_none (reg : Registry) (cols : List ColumnDef)
    (h : ∀ c ∈ cols, c.filter = none) :
    ∀ col renderCol, buildFiltersAux reg cols col renderCol = Except.ok [] := by
  induction cols with
  | nil => intro col renderCol; rfl
  | cons c cs ih =>
    intro col renderCol
    have hc := h c (List.mem_cons_self c cs)
    simp only [buildFiltersAux, hc]
    exact ih (fun c2 hc2 => h c2 (List.mem_cons_of_mem c hc2)) _ _

theorem buildFiltersAux_error (reg : Registry) (cols : List ColumnDef)
    (h : cols.any (fun c => match c.filter with
          | some d => (List.lookup d.type reg).isNone
          | none => false) = true) :
    ∀ col renderCol, ∃ e, buildFiltersAux reg cols col renderCol = Except.error e := by
  induction cols with
  | nil => simp at h
  | cons c cs ih =>
    intro col renderCol
    rw [List.any_cons] at h
    cases hc : c.filter with
    | none =>
      rw [hc] at h
      simp only [Bool.false_or] at h
      simp only [buildFiltersAux, hc]
      exact ih h _ _
    | some d =>
      cases hl : List.lookup d.type reg with
      | none =>
        exact ⟨d.type, by simp only [buildFiltersAux, hc, hl]⟩
      | some b =>
        rw [hc] at h
        simp only [hl, Option.isNone_some, Bool.false_or] at h
        obtain ⟨e, he⟩ := ih h (col + 1)
          (if c.bVisible then renderCol + 1 else renderCol)
        refine ⟨e, ?_⟩
        simp only [buildFiltersAux, hc, hl, he, Except.map]

/-! ### The ajax listener (`registerAjaxListener`, filters.js lines 75-81)

`registerAjaxListener` installs a persistent handler on the grid's `xhr`
event (fetch completed); each time it fires, a one-shot handler running
`refreshFilters` is registered on `preDraw`.  The jQuery/DataTables
one-shot semantics is modelled by a counter of pending one-shot
registrations: an `xhr` event arms one more, a `preDraw` event consumes
all pending ones (running the refresh once per pending registration) and
leaves none armed. -/

/-- A grid lifecycle event seen by the ajax listener. -/
inductive GridEv where
  | xhr : GridEv
  | preDraw : GridEv
deriving DecidableEq

/-- The number of pending one-shot `preDraw` registrations after
processing the event sequence, starting from none. -/
def armedAfter (es : List GridEv) : Nat :=
  es.foldl (fun n e => match e with
    | GridEv.xhr => n + 1
    | GridEv.preDraw => 0) 0

/-- Whether the refresh logic runs at position `i` of the event
sequence: the event is a `preDraw` and at least one one-shot handler is
pending. -/
def firesAt (es : List GridEv) (i : Nat) : Bool :=
  (es[i]? == some GridEv.preDraw) && decide (0 < armedAfter (es.take i))

theorem armedAfter_append_xhr (l : List GridEv) :
    armedAfter (l ++ [GridEv.xhr]) = armedAfter l + 1 := by
  simp [armedAfter, List.foldl_append]

theorem armedAfter_append_preDraw (l : List GridEv) :
    armedAfter (l ++ [GridEv.preDraw]) = 0 := by
  simp [armedAfter, List.foldl_append]

theorem armedAfter_pos_iff (l : List GridEv) :
    0 < armedAfter l ↔ ∃ j : Nat, l[j]? = some GridEv.xhr ∧
      ∀ k : Nat, j < k → l[k]? ≠ some GridEv.preDraw := by
  induction l using List.reverseRecOn with
  | nil => simp [armedAfter]
  | append_singleton l e ih =>
    cases e with
    | xhr =>
      rw [armedAfter_append_xhr]
      constructor
      · intro _
        refine ⟨l.length, ?_, ?_⟩
        · rw [List.getElem?_append_right (le_refl l.length)]
          simp
        · intro k hk
          have hlen : (l ++ [GridEv.xhr]).length ≤ k := by
            simpa using hk
          rw [List.getElem?_eq_none hlen]
          simp
      · intro _
        exact Nat.succ_pos _
    | preDraw =>
      rw [armedAfter_append_preDraw]
      simp only [Nat.lt_irrefl, false_iff]
      rintro ⟨j, hj, hk⟩
      by_cases hjl : j < l.length
      · have hmid := hk l.length hjl
        rw [List.getElem?_append_right (le_refl l.length)] at hmid
        simp at hmid
      · push_neg at hjl
        rw [List.getElem?_append_right hjl] at hj
        cases hd : j - l.length with
        | zero => rw [hd] at hj; simp at hj
        | succ n => rw [hd] at hj; simp at hj

/-! ### The text-input filter variant (`src/unnamed/part_000`) -/

namespace InputFilter

/-- The text-input filter's value state: the current value of its
`<input>` element (`this.$dom.val()`). -/
structure State where
  val : String
deriving DecidableEq

/-- Source `reset` (input filter lines 51-55): clear the input's value. -/
def reset (s : State) : State := { s with val := "" }

/-- Source `hasValue` (input filter lines 34-36): `this.$dom.val() != ''`. -/
def hasValue (s : State) : Bool := s.val != ""

/-- Source `selectedQuery` (input filter lines 38-40): the input's value. -/
def selectedQuery (s : State) : String := s.val

end InputFilter

theorem lastWriteOn_refresh (fs : List Filter) (vsOf : Filter → List String) (c : Nat) :
    lastWriteOn (fun f => ⟨f.query, f.regexMatch⟩)
      (fs.map (fun f => f.refresh (vsOf f))) c =
    lastWriteOn (fun f => ⟨f.query, f.regexMatch⟩) fs c := by
  induction fs with
  | nil => rfl
  | cons f fs ih =>
    simp only [List.map_cons, lastWriteOn, ih]
    rfl

/-! ### Concrete states used in counterexamples and witnesses -/

/-- Equality-style matcher standing in for the external grid's search:
the empty query accepts every cell, a non-empty query accepts exactly the
equal cell. -/
def mEq : ColSearch → String → Bool := fun s v => s.query == "" || s.query == v

def cexGrid : Grid :=
  { numCols := 1, rows := [["a"], ["b"]],
    searches := fun _ => { query := "a", regex := false }, url := "", log := [] }

def cexFilter : Filter :=
  { column := 0, renderColumn := 0, serverSide := false, hasValue := true,
    query := "a", initialQuery := "", serverQuery := "", regexMatch := false,
    options := [] }

def cexSt : St :=
  { filters := [cexFilter], url := "", initHooked := true, grid := cexGrid }

/-! ### Claim theorems -/

/-- C1 counterexample: one filter on column 0, loaded rows `a` and `b`,
and an applied search keeping only `a`.  `refreshFilters` passes
`["a","b"]` — the unfiltered distinct values of the column — to the
filter's `refresh()`, whereas the column's filtered distinct values are
`["a"]`; so the values it recomputes are not the filtered ones the claim
states. -/
theorem refreshFilters_filtered_values_cex :
    (refreshFilters cexSt).grid.log =
      [Event.refreshed 0 ["a", "b"], Event.searched 0 "a" false, Event.draw] ∧
    getFilteredColumnData mEq cexSt.grid 0 = ["a"] ∧
    (["a", "b"] : List String) ≠ ["a"] := by
  exact ⟨by decide, by decide, by decide⟩

/-- C1 (amended): `refreshFilters`, the handler run after each completed
remote fetch, processes every filter in collection order; for each one it
recomputes the column's *unfiltered* distinct rendered values
(`getColumnData`, which ignores the applied search state), passes them to
the filter's `refresh()`, reapplies the filter's predicate to the grid,
and issues exactly one redraw at the end. -/
theorem refreshFilters_unfiltered_trace (st : St) :
    (refreshFilters st).filters =
      st.filters.map (fun f => f.refresh (getColumnData st.grid f.column)) ∧
    (refreshFilters st).grid.log = st.grid.log ++
      (st.filters.map (fun f =>
        [Event.refreshed f.column (getColumnData st.grid f.column),
         Event.searched f.column f.query f.regexMatch])).flatten ++ [Event.draw] := by
  constructor
  · exact refreshLoop_filters st.filters st.grid
  · show (drawTable (refreshLoop st.filters st.grid).2).log = _
    rw [drawTable_log, refreshLoop_log]
    simp [getColumnData, List.append_assoc]

/-- C3: when a client-side filter reports a change,
`onClientFilterChange` applies the changed filter's predicate first, then
refreshes every other filter (those with a different column) when the
changed filter has a value, and all filters including the changed one
when it has none, each refresh followed by reapplying that filter's
predicate, in collection order, with exactly one redraw at the end.
Stated on the effect trace up to the payload of `refreshed` events. -/
theorem clientChange_trace_shape (m : ColSearch → String → Bool) (st : St)
    (changed : Filter) :
    ((onClientFilterChange m st changed).grid.log).map scrubRefresh =
      (st.grid.log).map scrubRefresh
        ++ [Event.searched changed.column changed.query changed.regexMatch]
        ++ ((if changed.hasValue then
              st.filters.filter (fun f => f.column ≠ changed.column)
            else st.filters).map (fun f =>
              [Event.refreshed f.column [],
               Event.searched f.column f.query f.regexMatch])).flatten
        ++ [Event.draw] := by
  show ((drawTable (cascadeLoop m (refreshSet st.filters changed)
      (applyFilter st.grid changed)).2).log).map scrubRefresh = _
  rw [drawTable_log, List.map_append, cascadeLoop_log_scrubbed]
  simp [applyFilter, applySearch, scrubRefresh, refreshSet, List.append_assoc]

/-- C4: when any server-side filter reports a change,
`onServerFilterChange` collects `getServerQuery()` from every server-side
filter regardless of its value, joins the fragments with `&`, sets the
grid's ajax URL to the construction-captured base plus `?` plus the
joined query, and reloads; it applies no predicate, refreshes no filter,
performs no redraw, and leaves the base URL itself untouched. -/
theorem serverChange_routing (st : St) :
    (onServerFilterChange st).grid.url = st.url ++ "?" ++
      String.intercalate "&"
        ((st.filters.filter (fun f => f.serverSide)).map (fun f => f.serverQuery)) ∧
    (onServerFilterChange st).grid.log = st.grid.log ++
      [Event.urlSet ((onServerFilterChange st).grid.url), Event.reload] ∧
    (onServerFilterChange st).filters = st.filters ∧
    (onServerFilterChange st).url = st.url ∧
    (∀ c, (onServerFilterChange st).grid.searches c = st.grid.searches c) ∧
    (onServerFilterChange st).grid.rows = st.grid.rows := by
  exact ⟨rfl, rfl, rfl, rfl, fun c => rfl, rfl⟩

/-- C9: `refreshFilters` is idempotent: calling it twice in succession
with no intervening value change yields the same filter collection (in
particular the same option lists) and the same applied per-column search
state as calling it once. -/
theorem refreshFilters_idempotent (st : St) :
    (refreshFilters (refreshFilters st)).filters = (refreshFilters st).filters ∧
    ∀ c, (refreshFilters (refreshFilters st)).grid.searches c =
      (refreshFilters st).grid.searches c := by
  have hfil : (refreshFilters st).filters =
      st.filters.map (fun f => f.refresh (cellColumn st.grid.rows f.column)) :=
    refreshLoop_filters _ _
  have hrows : (refreshFilters st).grid.rows = st.grid.rows :=
    refreshLoop_rows _ _
  constructor
  · have h2 : (refreshFilters (refreshFilters st)).filters =
        (refreshFilters st).filters.map
          (fun f => f.refresh (cellColumn (refreshFilters st).grid.rows f.column)) :=
      refreshLoop_filters _ _
    rw [h2, hrows, hfil, List.map_map]
    exact List.map_congr_left (fun f _ => rfl)
  · intro c
    have e2 : (refreshFilters (refreshFilters st)).grid.searches c =
        (lastWriteOn (fun f => ⟨f.query, f.regexMatch⟩)
          (refreshFilters st).filters c).getD
          ((refreshFilters st).grid.searches c) :=
      refreshLoop_searches _ _ _
    have e1 : (refreshFilters st).grid.searches c =
        (lastWriteOn (fun f => ⟨f.query, f.regexMatch⟩) st.filters c).getD
          (st.grid.searches c) :=
      refreshLoop_searches _ _ _
    rw [e2, hfil, lastWriteOn_refresh]
    cases hl : lastWriteOn (fun f => ⟨f.query, f.regexMatch⟩) st.filters c with
    | some s =>
      rw [e1, hl]
      rfl
    | none => rfl

def wA : Filter :=
  { column := 0, renderColumn := 0, serverSide := false, hasValue := true,
    query := "x", initialQuery := "", serverQuery := "", regexMatch := false,
    options := [] }

def wB : Filter :=
  { column := 1, renderColumn := 1, serverSide := false, hasValue := true,
    query := "p", initialQuery := "", serverQuery := "", regexMatch := false,
    options := [] }

def wGrid : Grid :=
  { numCols := 2, rows := [["x", "p"], ["x", "q"]],
    searches := fun c =>
      if c = 0 then { query := "x", regex := false }
      else if c = 1 then { query := "p", regex := false }
      else { query := "", regex := false },
    url := "", log := [] }

def wSt : St := { filters := [wA, wB], url := "", initHooked := true, grid := wGrid }

/-- Modelled from the spec: the row selection the claim describes for a
refreshed filter — rows passing every *other* active predicate, the
refreshed filter's own column predicate excluded. -/
def rowPassesExceptCol (m : ColSearch → String → Bool) (g : Grid) (own : Nat)
    (r : List String) : Bool :=
  (List.range g.numCols).all (fun c => c == own || m (g.searches c) (r.getD c ""))

/-- Modelled from the spec: distinct rendered values of column `own`
over rows passing every applied predicate except the one on column
`own` itself. -/
def filteredColumnDataExceptOwn (m : ColSearch → String → Bool) (g : Grid)
    (own : Nat) : List String :=
  cellColumn (g.rows.filter (rowPassesExceptCol m g own)) own

/-- C2 counterexample: two client-side filters, `wA` on column 0 (value
`x`) and `wB` on column 1 (value `p`, already applied), rows
`[x,p]`,`[x,q]`.  When `wA` changes, the cascade passes `["p"]` to `wB`'s
`refresh()` — computed over rows passing *all* applied predicates,
including `wB`'s own column-1 predicate — whereas excluding `wB`'s own
predicate as the claim states would give `["p","q"]`. -/
theorem clientChange_own_predicate_cex :
    (onClientFilterChange mEq wSt wA).grid.log =
      [Event.searched 0 "x" false, Event.refreshed 1 ["p"],
       Event.searched 1 "p" false, Event.draw] ∧
    filteredColumnDataExceptOwn mEq (applyFilter wSt.grid wA) 1 = ["p", "q"] ∧
    (["p"] : List String) ≠ ["p", "q"] := by
  exact ⟨by decide, by decide, by decide⟩

/-- C2 (amended): during the refresh cascade of `onClientFilterChange`,
provided the grid's per-column search state already reflects every
filter's current predicate once the changed filter's new predicate is
applied (the steady state of normal operation), each filter of the
refresh set receives the distinct rendered values of its column over the
rows passing *all* currently applied predicates — the other filters'
and that filter's own column predicate alike (`getFilteredColumnData`);
the refreshed filter's own predicate is not excluded from the row
selection. -/
theorem clientChange_refresh_values_synced (m : ColSearch → String → Bool)
    (st : St) (changed : Filter)
    (hsync : ∀ f ∈ st.filters,
      (applyFilter st.grid changed).searches f.column = ⟨f.query, f.regexMatch⟩) :
    (onClientFilterChange m st changed).grid.log =
      st.grid.log
        ++ [Event.searched changed.column changed.query changed.regexMatch]
        ++ ((refreshSet st.filters changed).map (fun f =>
              [Event.refreshed f.column
                 (getFilteredColumnData m (applyFilter st.grid changed) f.column),
               Event.searched f.column f.query f.regexMatch])).flatten
        ++ [Event.draw] := by
  have hsub : ∀ f ∈ refreshSet st.filters changed,
      (applyFilter st.grid changed).searches f.column = ⟨f.query, f.regexMatch⟩ := by
    intro f hf
    apply hsync
    by_cases h : changed.hasValue
    · rw [refreshSet, if_pos h] at hf
      exact List.mem_of_mem_filter hf
    · rw [refreshSet, if_neg h] at hf
      exact hf
  show (drawTable (cascadeLoop m (refreshSet st.filters changed)
      (applyFilter st.grid changed)).2).log = _
  rw [drawTable_log, cascadeLoop_log_synced m _ _ hsub]
  have hlog1 : (applyFilter st.grid changed).log = st.grid.log ++
      [Event.searched changed.column changed.query changed.regexMatch] := rfl
  rw [hlog1]

/-- Witness for C2's amended theorem at the concrete two-filter state. -/
theorem clientChange_refresh_values_synced_witness :
    (onClientFilterChange mEq wSt wA).grid.log =
      wSt.grid.log
        ++ [Event.searched wA.column wA.query wA.regexMatch]
        ++ ((refreshSet wSt.filters wA).map (fun f =>
              [Event.refreshed f.column
                 (getFilteredColumnData mEq (applyFilter wSt.grid wA) f.column),
               Event.searched f.column f.query f.regexMatch])).flatten
        ++ [Event.draw] :=
  clientChange_refresh_values_synced mEq wSt wA (by decide)

/-- C5: when no column declares a filter descriptor, construction
succeeds with an empty filter collection, installs no event
subscription, and leaves the grid completely untouched (no logged
effect, no search-state change): the grid behaves as if the coordinator
were absent. -/
theorem construct_no_filters_noop (reg : Registry) (cols : List ColumnDef)
    (g : Grid) (h : ∀ c ∈ cols, c.filter = none) :
    construct reg cols g =
      Except.ok { filters := [], url := g.url, initHooked := false, grid := g } := by
  unfold construct
  rw [buildFiltersAux_none reg cols h 0 0]
  rfl

def plainCols : List ColumnDef :=
  [{ filter := none, bVisible := true }, { filter := none, bVisible := false }]

/-- Witness for C5 at a concrete two-column, filterless configuration. -/
theorem construct_no_filters_noop_witness :
    construct [] plainCols cexGrid =
      Except.ok { filters := [], url := cexGrid.url, initHooked := false,
                  grid := cexGrid } :=
  construct_no_filters_noop [] plainCols cexGrid (by decide)

/-- C6: a column descriptor naming a filter type absent from the
registry makes construction fail with an error (the registry lookup
comes back empty and the builder call throws), instead of silently
skipping that column's filter. -/
theorem construct_unknown_type_errors (reg : Registry) (cols : List ColumnDef)
    (g : Grid)
    (h : cols.any (fun c => match c.filter with
          | some d => (List.lookup d.type reg).isNone
          | none => false) = true) :
    ∃ e, construct reg cols g = Except.error e := by
  obtain ⟨e, he⟩ := buildFiltersAux_error reg cols h 0 0
  refine ⟨e, ?_⟩
  unfold construct
  rw [he]
  rfl

def builder0 : Nat → Nat → Filter := fun col rcol =>
  { column := col, renderColumn := rcol, serverSide := false, hasValue := false,
    query := "", initialQuery := "ini", serverQuery := "", regexMatch := true,
    options := [] }

def reg1 : Registry := [("input", builder0)]

def badCols : List ColumnDef :=
  [{ filter := some { type := "select" }, bVisible := true }]

/-- Witness for C6: a registry knowing only `input`, a column declaring
`select`. -/
theorem construct_unknown_type_errors_witness :
    ∃ e, construct reg1 badCols cexGrid = Except.error e :=
  construct_unknown_type_errors reg1 badCols cexGrid (by decide)

/-- C7: whenever the column scan yields a non-empty filter collection
(with the spec's unique-column invariant), construction succeeds,
captures the base URL, subscribes the one-time init hook, and applies
every filter's initial query to the grid's per-column search state
before any fetch: the only effects logged are the per-filter `searched`
events carrying the initial queries, in collection order — no reload, no
draw — and afterwards every filter's column search equals its initial
query while every other column keeps its previous search state. -/
theorem construct_applies_initial_queries (reg : Registry) (cols : List ColumnDef)
    (g : Grid) (fs : List Filter)
    (hok : buildFiltersAux reg cols 0 0 = Except.ok fs) (hne : fs ≠ [])
    (hnodup : (fs.map (fun f => f.column)).Nodup) :
    ∃ st, construct reg cols g = Except.ok st ∧
      st.filters = fs ∧ st.url = g.url ∧ st.initHooked = true ∧
      st.grid.url = g.url ∧
      st.grid.log = g.log ++
        fs.map (fun f => Event.searched f.column f.initialQuery f.regexMatch) ∧
      (∀ f ∈ fs, st.grid.searches f.column = ⟨f.initialQuery, f.regexMatch⟩) ∧
      (∀ c, (∀ f ∈ fs, f.column ≠ c) → st.grid.searches c = g.searches c) := by
  have hemp : fs.isEmpty = false := by
    cases fs with
    | nil => exact absurd rfl hne
    | cons f fs => rfl
  refine ⟨{ filters := fs, url := g.url, initHooked := true,
            grid := fs.foldl applyInitialFilter g },
          ?_, rfl, rfl, rfl, ?_, ?_, ?_, ?_⟩
  · unfold construct
    rw [hok]
    simp [Except.map, hemp]
  · exact applyInitAll_url fs g
  · exact applyInitAll_log fs g
  · intro f hf
    rw [applyInitAll_searches, lastWriteOn_self _ fs hnodup f hf]
    rfl
  · intro c hc
    rw [applyInitAll_searches, lastWriteOn_of_not_mem _ fs c hc]
    rfl

def goodCols : List ColumnDef :=
  [{ filter := some { type := "input" }, bVisible := true },
   { filter := none, bVisible := true }]

/-- Witness for C7: one registered `input` filter on column 0. -/
theorem construct_applies_initial_queries_witness :
    ∃ st, construct reg1 goodCols cexGrid = Except.ok st ∧
      st.filters = [builder0 0 0] ∧ st.url = cexGrid.url ∧ st.initHooked = true ∧
      st.grid.url = cexGrid.url ∧
      st.grid.log = cexGrid.log ++
        [builder0 0 0].map (fun f =>
          Event.searched f.column f.initialQuery f.regexMatch) ∧
      (∀ f ∈ [builder0 0 0],
        st.grid.searches f.column = ⟨f.initialQuery, f.regexMatch⟩) ∧
      (∀ c, (∀ f ∈ [builder0 0 0], f.column ≠ c) →
        st.grid.searches c = cexGrid.searches c) :=
  construct_applies_initial_queries reg1 goodCols cexGrid [builder0 0 0]
    rfl (by decide) (by decide)

/-- C8: the refresh interception is exactly characterized: the refresh
logic (armed by `registerAjaxListener` as a one-shot `preDraw` handler
on each `xhr` event) runs at position `i` of the grid's event sequence
iff that event is a redraw and some fetch completed since the previous
redraw.  In particular the interception is one-shot (the redraw that
consumes it disarms it), it is re-armed by each fetch, and refresh never
runs on a redraw not preceded by a fetch. -/
theorem refresh_fires_iff_fetch_since_last_draw (es : List GridEv) (i : Nat) :
    firesAt es i = true ↔
      (es[i]? = some GridEv.preDraw ∧
       ∃ j : Nat, (es.take i)[j]? = some GridEv.xhr ∧
         ∀ k : Nat, j < k → (es.take i)[k]? ≠ some GridEv.preDraw) := by
  unfold firesAt
  rw [Bool.and_eq_true, beq_iff_eq, decide_eq_true_iff]
  exact and_congr Iff.rfl (armedAfter_pos_iff _)

/-- C10: for the text-input filter variant, `reset()` clears the
constraint: `reset()` followed by `hasValue()` yields `false`, for every
prior value state. -/
theorem inputFilter_reset_clears_value (s : InputFilter.State) :
    InputFilter.hasValue (InputFilter.reset s) = false := by
  rfl

end DatatableFilters
